import Mathlib

/-
Verification of the reconciliation core in src/config.go (package stunner).

The file embeds the data model and the three operations the specification
talks about — LoadConfig (environment substitution and YAML/JSON parsing),
GetConfig (configuration snapshot assembly) and Stunner.Reconcile (the
reconciliation orchestrator) — as pure Lean functions, and proves the
spec-level properties about them.

The generic resource manager (internal/manager), the per-object in-place
update and the object factories (internal/object), and the configuration
validation (pkg/apis/v1alpha1) are code of the repository that is not part
of src/; they are modelled from the specification at their interface
boundary, with the concrete update/factory behavior kept as parameters
(structure External below) so theorems quantify over every admissible external
behavior.

Logging calls (s.log.Debugf, s.log.Warn, ...) are I/O and carry no state
the properties mention; they are dropped. The active logger itself is
state (it is rebound during reconciliation), and is modelled by the
logLevel field of the daemon state.
-/

/-- Errors flowing through the single Go error channel: either the
distinguished v1alpha1.ErrRestartRequired sentinel, or an ordinary (fatal)
error carrying its message. -/
inductive Err where
  | restartRequired
  | fatal (msg : String)
deriving DecidableEq

/-- Modelled from the spec: outcome of a Resource Object's in-place update
with a new configuration (internal/object, not under src/): silent success
(the object now reflects the new configuration), a hot-update-impossible
signal (the old object stays live, a restart-required condition is
recorded), or a fatal failure. -/
inductive UpdRes where
  | ok
  | restartRequired
  | fatal (msg : String)
deriving DecidableEq

/-- v1alpha1.AdminConfig: daemon-wide singleton settings. -/
structure AdminConfig where
  LogLevel : String
deriving DecidableEq

/-- v1alpha1.AuthConfig: daemon-wide singleton authentication settings. -/
structure AuthConfig where
  type : String
  Realm : String
  Credentials : List (String × String)
deriving DecidableEq

/-- v1alpha1.ListenerConfig: a named ingress endpoint descriptor. -/
structure ListenerConfig where
  Name : String
  Protocol : String
  Addr : String
  Port : Int
  Routes : List String
deriving DecidableEq

/-- v1alpha1.ClusterConfig: a named set of egress targets. -/
structure ClusterConfig where
  Name : String
  type : String
  Endpoints : List String
deriving DecidableEq

/-- v1alpha1.StunnerConfig: the full declarative configuration. -/
structure StunnerConfig where
  ApiVersion : String
  Admin : AdminConfig
  Auth : AuthConfig
  Listeners : List ListenerConfig
  Clusters : List ClusterConfig
deriving DecidableEq

/-- Modelled from the spec: a Resource Manager's state (internal/manager,
not under src/): an ordered mapping from identity key to Resource Object,
where a Resource Object is represented by the configuration it currently
holds. -/
abbrev Manager (α : Type) : Type := List (String × α)

/-- First object stored under key n, if any. -/
def lookupMgr {α : Type} (n : String) : Manager α → Option α
  | [] => none
  | e :: rest => if e.1 = n then some e.2 else lookupMgr n rest

/-- Replace the configuration of every object stored under key n. -/
def replaceMgr {α : Type} (n : String) (c : α) (st : Manager α) : Manager α :=
  st.map (fun e => if e.1 = n then (e.1, c) else e)

/-- Modelled from the spec: Keys, the deterministic ordered listing of
current identities. -/
def mgrKeys {α : Type} (st : Manager α) : List String :=
  st.map Prod.fst

/-- Modelled from the spec: Upsert registers a freshly constructed object
under its identity key, overwriting any previous entry with that key. -/
def upsert {α : Type} (key : α → String) (st : Manager α) (c : α) : Manager α :=
  if st.any (fun e => e.1 = key c) then replaceMgr (key c) c st else st ++ [(key c, c)]

/-- Modelled from the spec: the per-identity loop of the Resource
Manager's Reconcile. Identities are processed in desired order: an absent
identity is appended to toConstruct; a present one is updated in place,
where success replaces the stored configuration, a restart signal keeps
the old object and records the restart-required condition, and any other
update failure aborts immediately with that error, leaving the state as-is
for identities not yet reached. The recorded restart-required condition is
propagated as the distinguished error value. -/
def mgrLoop {α : Type} (upd : α → α → UpdRes) (key : α → String) :
    Manager α → List α → Bool → Manager α × List α × Option Err
  | st, [], restart => (st, [], if restart then some Err.restartRequired else none)
  | st, c :: rest, restart =>
    match lookupMgr (key c) st with
    | none =>
      match mgrLoop upd key st rest restart with
      | (st1, toC, e) => (st1, c :: toC, e)
    | some old =>
      match upd old c with
      | UpdRes.ok => mgrLoop upd key (replaceMgr (key c) c st) rest restart
      | UpdRes.restartRequired => mgrLoop upd key st rest true
      | UpdRes.fatal m => (st, [], some (Err.fatal m))

/-- Modelled from the spec: the Resource Manager's Reconcile. Any existing
object whose identity key does not appear in desired is removed (its live
resources released) regardless of the per-identity outcomes; the remaining
identities are then processed in desired order by mgrLoop. -/
def mReconcile {α : Type} (upd : α → α → UpdRes) (key : α → String)
    (st : Manager α) (desired : List α) : Manager α × List α × Option Err :=
  mgrLoop upd key (st.filter (fun e => desired.any (fun c => key c = e.1))) desired false

/-- Translated from src/config.go: the factory-and-upsert loop run by the
orchestrator over a manager's toConstruct list (the admin, auth and
cluster variants, lines 156-162, 176-182 and 226-232). A factory error
that is not the RestartRequired sentinel is returned as-is and aborts the
loop before upserting the failed object; otherwise the new object is
upserted. -/
def constructLoop {α : Type} (factory : α → Option Err) (key : α → String) :
    Manager α → List α → Manager α × Option String
  | st, [] => (st, none)
  | st, c :: rest =>
    match factory c with
    | some (Err.fatal m) => (st, some m)
    | _ => constructLoop factory key (upsert key st c) rest

/-- Translated from src/config.go lines 198-206: the listener variant of
the factory-and-upsert loop, which additionally sets the restart flag for
every newly constructed listener (new listeners require a restart). -/
def constructLoopListener (factory : ListenerConfig → Option Err)
    (key : ListenerConfig → String) :
    Manager ListenerConfig → Bool → List ListenerConfig →
      Manager ListenerConfig × Bool × Option String
  | st, restart, [] => (st, restart, none)
  | st, restart, c :: rest =>
    match factory c with
    | some (Err.fatal m) => (st, restart, some m)
    | _ => constructLoopListener factory key (upsert key st c) true rest

/-- Modelled from the spec: the fixed well-known identity key of the admin
singleton object. -/
def adminName : String := "admin"

/-- Modelled from the spec: the fixed well-known identity key of the auth
singleton object. -/
def authName : String := "auth"

def adminKey (_ : AdminConfig) : String := adminName

def authKey (_ : AuthConfig) : String := authName

def listenerKey (c : ListenerConfig) : String := c.Name

def clusterKey (c : ClusterConfig) : String := c.Name

/-- The running daemon state: the version string, the four resource
managers, and the level the active logger is bound to. -/
structure Stunner where
  version : String
  logLevel : String
  adminManager : Manager AdminConfig
  authManager : Manager AuthConfig
  listenerManager : Manager ListenerConfig
  clusterManager : Manager ClusterConfig
deriving DecidableEq

def defaultAdminConfig : AdminConfig := { LogLevel := "" }

def defaultAuthConfig : AuthConfig := { type := "", Realm := "", Credentials := [] }

def defaultListenerConfig : ListenerConfig :=
  { Name := "", Protocol := "", Addr := "", Port := 0, Routes := [] }

def defaultClusterConfig : ClusterConfig := { Name := "", type := "", Endpoints := [] }

/-- Modelled from the spec: GetAdmin reads the admin singleton object of a
given admin manager state (the admin object always exists while the
daemon runs, so the default is never observable). -/
def getAdminMgr (mgr : Manager AdminConfig) : AdminConfig :=
  (lookupMgr adminName mgr).getD defaultAdminConfig

/-- s.GetAdmin(): the current admin singleton object. -/
def getAdmin (s : Stunner) : AdminConfig :=
  getAdminMgr s.adminManager

/-- s.GetAuth(): the current auth singleton object. -/
def getAuth (s : Stunner) : AuthConfig :=
  (lookupMgr authName s.authManager).getD defaultAuthConfig

/-- s.GetListener(name): the listener object stored under a name. -/
def getListener (s : Stunner) (n : String) : ListenerConfig :=
  (lookupMgr n s.listenerManager).getD defaultListenerConfig

/-- s.GetCluster(name): the cluster object stored under a name. -/
def getCluster (s : Stunner) (n : String) : ClusterConfig :=
  (lookupMgr n s.clusterManager).getD defaultClusterConfig

/-- The external per-kind behavior the orchestrator calls into: the
in-place update of each object kind (internal/object, behind the
manager's Reconcile) and the outcome of each object factory
(object.NewAdmin / NewAuth / NewListener / NewCluster). A factory outcome
of none or the RestartRequired sentinel yields a usable object, which is
represented by the configuration it was built from. -/
structure External where
  updAdmin : AdminConfig → AdminConfig → UpdRes
  updAuth : AuthConfig → AuthConfig → UpdRes
  updListener : ListenerConfig → ListenerConfig → UpdRes
  updCluster : ClusterConfig → ClusterConfig → UpdRes
  newAdmin : AdminConfig → Option Err
  newAuth : AuthConfig → Option Err
  newListener : ListenerConfig → Option Err
  newCluster : ClusterConfig → Option Err

/-- Modelled from the spec: StunnerConfig.Validate (pkg/apis/v1alpha1, not
under src/). Listener and cluster names must be non-empty and unique
within their respective lists; an invalid configuration is rejected with
an error before any state mutation. -/
def validate (req : StunnerConfig) : Option String :=
  if (req.Listeners.map ListenerConfig.Name).Nodup
      ∧ (req.Clusters.map ClusterConfig.Name).Nodup
      ∧ req.Listeners.all (fun l => !(l.Name = ""))
      ∧ req.Clusters.all (fun c => !(c.Name = "")) then
    none
  else
    some "invalid configuration"

/-- Translated from src/config.go lines 147-162 (and the analogous auth
and cluster stages): one manager-then-factories stage of the
orchestrator. The manager's restart signal sets the restart flag; any
other manager error is wrapped with the stage's message and returned; a
fatal factory error aborts the stage and is returned unwrapped. -/
def stageCore {α : Type} (upd : α → α → UpdRes) (key : α → String)
    (factory : α → Option Err) (wrapMsg : String)
    (mgr : Manager α) (desired : List α) (restart : Bool) :
    Manager α × Bool × Option String :=
  match mReconcile upd key mgr desired with
  | (mgr1, toC, merr) =>
    match merr with
    | some (Err.fatal m) => (mgr1, restart, some (wrapMsg ++ m))
    | _ =>
      match constructLoop factory key mgr1 toC with
      | (mgr2, some m) => (mgr2, restart || (merr == some Err.restartRequired), some m)
      | (mgr2, none) => (mgr2, restart || (merr == some Err.restartRequired), none)

/-- The admin stage of Reconcile (src/config.go lines 147-162). -/
def adminStageCore (ext : External) (req : StunnerConfig)
    (mgr : Manager AdminConfig) (restart : Bool) :
    Manager AdminConfig × Bool × Option String :=
  stageCore ext.updAdmin adminKey ext.newAdmin "could not reconcile admin config: "
    mgr [req.Admin] restart

/-- The auth stage of Reconcile (src/config.go lines 167-182). -/
def authStageCore (ext : External) (req : StunnerConfig)
    (mgr : Manager AuthConfig) (restart : Bool) :
    Manager AuthConfig × Bool × Option String :=
  stageCore ext.updAuth authKey ext.newAuth "could not reconcile auth config: "
    mgr [req.Auth] restart

/-- The listener stage of Reconcile (src/config.go lines 185-206): like
the generic stage, except that every newly constructed listener
additionally sets the restart flag. -/
def listenerStageCore (ext : External) (req : StunnerConfig)
    (mgr : Manager ListenerConfig) (restart : Bool) :
    Manager ListenerConfig × Bool × Option String :=
  match mReconcile ext.updListener listenerKey mgr req.Listeners with
  | (mgr1, toC, merr) =>
    match merr with
    | some (Err.fatal m) => (mgr1, restart, some ("could not reconcile listener config: " ++ m))
    | _ =>
      constructLoopListener ext.newListener listenerKey mgr1
        (restart || (merr == some Err.restartRequired)) toC

/-- The cluster stage of Reconcile (src/config.go lines 213-232). -/
def clusterStageCore (ext : External) (req : StunnerConfig)
    (mgr : Manager ClusterConfig) (restart : Bool) :
    Manager ClusterConfig × Bool × Option String :=
  stageCore ext.updCluster clusterKey ext.newCluster "could not reconcile cluster config: "
    mgr req.Clusters restart

/-- Translated from src/config.go lines 136-243: Stunner.Reconcile. The
desired configuration is validated first; the admin, auth, listener and
cluster stages then run in this fixed order, with the active logger
rebound to the (possibly updated) admin object's log level immediately
after the admin stage; a fatal stage error aborts the remaining stages
and is returned, leaving the mutations already applied in place; finally
the accumulated restart flag collapses to the RestartRequired verdict or
nil. -/
def Reconcile (ext : External) (s : Stunner) (req : StunnerConfig) : Stunner × Option Err :=
  match validate req with
  | some m => (s, some (Err.fatal m))
  | none =>
    match adminStageCore ext req s.adminManager false with
    | (am, _, some m) => ({ s with adminManager := am }, some (Err.fatal m))
    | (am, r1, none) =>
      let s1 : Stunner := { s with adminManager := am, logLevel := (getAdminMgr am).LogLevel }
      match authStageCore ext req s1.authManager r1 with
      | (aum, _, some m) => ({ s1 with authManager := aum }, some (Err.fatal m))
      | (aum, r2, none) =>
        let s2 : Stunner := { s1 with authManager := aum }
        match listenerStageCore ext req s2.listenerManager r2 with
        | (lm, _, some m) => ({ s2 with listenerManager := lm }, some (Err.fatal m))
        | (lm, r3, none) =>
          let s3 : Stunner := { s2 with listenerManager := lm }
          match clusterStageCore ext req s3.clusterManager r3 with
          | (cm, _, some m) => ({ s3 with clusterManager := cm }, some (Err.fatal m))
          | (cm, r4, none) =>
            ({ s3 with clusterManager := cm },
              if r4 then some Err.restartRequired else none)

/-- Translated from src/config.go lines 110-133: Stunner.GetConfig
assembles the full configuration of the running daemon from the current
admin and auth singleton objects and, for listeners and clusters, from
each manager's key listing in order. -/
def GetConfig (s : Stunner) : StunnerConfig :=
  { ApiVersion := s.version
    Admin := getAdmin s
    Auth := getAuth s
    Listeners := (mgrKeys s.listenerManager).map (fun n => getListener s n)
    Clusters := (mgrKeys s.clusterManager).map (fun n => getCluster s n) }

/-- Modelled from the spec: v1alpha1.DefaultPort, the default STUNner
listening port used when no usable port is found in the environment
(pkg/apis/v1alpha1, not under src/). -/
def DefaultPort : Int := 3478

/-- Models the regular expression [0-9]+ anchored on both sides, as
compiled at src/config.go line 80: one or more ASCII decimal digits and
nothing else. -/
def digitsOnly (p : String) : Bool :=
  !p.data.isEmpty && p.data.all Char.isDigit

/-- The decimal value of a digit list, most significant first. -/
def digitsVal (acc : Nat) : List Char → Nat
  | [] => acc
  | c :: cs => digitsVal (acc * 10 + (c.toNat - 48)) cs

/-- Models Go strconv.Atoi: an optional single sign followed by one or
more decimal digits, with the resulting value required to fit in a signed
64-bit int; anything else is a parse error. -/
def goAtoi (s : String) : Option Int :=
  match s.data with
  | [] => none
  | c :: cs =>
    let signDigits : Bool × List Char :=
      if c = '-' then (true, cs) else if c = '+' then (false, cs) else (false, c :: cs)
    if signDigits.2.isEmpty || !signDigits.2.all Char.isDigit then none
    else
      let v : Int :=
        if signDigits.1 then -(digitsVal 0 signDigits.2 : Int) else (digitsVal 0 signDigits.2 : Int)
      if v < -9223372036854775808 ∨ v > 9223372036854775807 then none else some v

/-- The process environment, as a map from variable name to value. -/
abbrev Env : Type := String → Option String

/-- os.Setenv: point update of the environment. -/
def setEnv (env : Env) (k v : String) : Env :=
  fun k2 => if k2 = k then some v else env k2

/-- Translated from src/config.go lines 83-89: the port value the
STUNNER_PORT variable is defaulted to — the parsed integer value of
STUNNER_PUBLIC_PORT when that variable is set and parses, and DefaultPort
otherwise. -/
def resolvePublicPort (env : Env) : Int :=
  match env "STUNNER_PUBLIC_PORT" with
  | none => DefaultPort
  | some ps =>
    match goAtoi ps with
    | some p => p
    | none => DefaultPort

/-- Translated from src/config.go lines 80-91: the environment mutation
LoadConfig performs before expanding the file content — when STUNNER_PORT
is unset, empty, or does not match the digits-only pattern, it is set to
the decimal rendering of resolvePublicPort. -/
def loadConfigEnvUpdate (env : Env) : Env :=
  let bad : Bool :=
    match env "STUNNER_PORT" with
    | none => true
    | some port => (port == "") || !digitsOnly port
  if bad then setEnv env "STUNNER_PORT" (toString (resolvePublicPort env)) else env

/-- The observable outcome of LoadConfig: a parsed configuration, an error
return with its message, or the call of Error() on the nil JSON error
value in the fallback branch (a nil-interface method call in Go). -/
inductive LoadOutcome where
  | ok (c : StunnerConfig)
  | err (m : String)
  | nilErrorCall
deriving DecidableEq

/-- The external collaborators of LoadConfig: the outcome of os.ReadFile
on the requested path, the yaml.Unmarshal and json.Unmarshal parsers, and
os.ExpandEnv applied under a given environment. -/
structure LoadCtx where
  env : Env
  readFileRes : Except String String
  yamlUnmarshal : String → Except String StunnerConfig
  jsonUnmarshal : String → Except String StunnerConfig
  expandEnv : Env → String → String

/-- Translated from src/config.go lines 72-107: LoadConfig. Returns the
environment after the STUNNER_PORT defaulting side effect together with
the outcome. On a read error the error is returned with the environment
untouched; otherwise the content is expanded under the updated
environment and parsed with YAML; on YAML failure the JSON fallback runs,
but the branch re-tests the YAML error (non-nil there), so the fallback
always takes the error path, formatting the JSON error message — a nil
method call when json.Unmarshal actually succeeded. -/
def LoadConfig (ctx : LoadCtx) (configPath : String) : Env × LoadOutcome :=
  match ctx.readFileRes with
  | Except.error m => (ctx.env, LoadOutcome.err ("could not read config: " ++ m ++ "\n"))
  | Except.ok content =>
    let env1 : Env := loadConfigEnvUpdate ctx.env
    let e : String := ctx.expandEnv env1 content
    match ctx.yamlUnmarshal e with
    | Except.ok s => (env1, LoadOutcome.ok s)
    | Except.error ye =>
      match ctx.jsonUnmarshal e with
      | Except.error je =>
        (env1, LoadOutcome.err ("could not parse config file at '" ++ configPath ++
          "': YAML parse error: " ++ ye ++ ", JSON parse error: " ++ je ++ "\n"))
      | Except.ok _ => (env1, LoadOutcome.nilErrorCall)

theorem lookupMgr_eq_none_iff {α : Type} (n : String) (st : Manager α) :
    lookupMgr n st = none ↔ n ∉ mgrKeys st := by
  induction st with
  | nil => simp [lookupMgr, mgrKeys]
  | cons e rest ih =>
    by_cases h : e.1 = n
    · simp [lookupMgr, mgrKeys, h]
    · have h2 : ¬ n = e.1 := fun hn => h hn.symm
      simp [lookupMgr, mgrKeys, h, h2, ih]

theorem mgrKeys_replaceMgr {α : Type} (n : String) (c : α) (st : Manager α) :
    mgrKeys (replaceMgr n c st) = mgrKeys st := by
  induction st with
  | nil => rfl
  | cons e rest ih =>
    by_cases h : e.1 = n <;>
      simp_all [replaceMgr, mgrKeys, h]

theorem mgrLoop_keys {α : Type} (upd : α → α → UpdRes) (key : α → String)
    (desired : List α) (st : Manager α) (restart : Bool) :
    mgrKeys (mgrLoop upd key st desired restart).1 = mgrKeys st := by
  induction desired generalizing st restart with
  | nil => rfl
  | cons c rest ih =>
    simp only [mgrLoop]
    cases hl : lookupMgr (key c) st with
    | none =>
      cases hm : mgrLoop upd key st rest restart with
      | mk st1 p =>
        have h1 := ih st restart
        rw [hm] at h1
        simpa using h1
    | some old =>
      cases hu : upd old c with
      | ok => simp [hu, ih, mgrKeys_replaceMgr]
      | restartRequired => simp [hu, ih]
      | fatal m => simp [hu]

theorem lookupMgr_eq_none_of_novel {α : Type} {n : String} {st : Manager α}
    (h : n ∉ mgrKeys st) : lookupMgr n st = none :=
  (lookupMgr_eq_none_iff n st).2 h

theorem mgrLoop_all_novel {α : Type} (upd : α → α → UpdRes) (key : α → String)
    (desired : List α) (st : Manager α) (restart : Bool)
    (h : ∀ c ∈ desired, lookupMgr (key c) st = none) :
    mgrLoop upd key st desired restart =
      (st, desired, if restart then some Err.restartRequired else none) := by
  induction desired with
  | nil => rfl
  | cons c rest ih =>
    have hc : lookupMgr (key c) st = none := h c (List.mem_cons_self c rest)
    have hr : mgrLoop upd key st rest restart =
        (st, rest, if restart then some Err.restartRequired else none) :=
      ih (fun d hd => h d (List.mem_cons_of_mem c hd))
    simp [mgrLoop, hc, hr]

theorem mReconcile_all_novel {α : Type} (upd : α → α → UpdRes) (key : α → String)
    (desired : List α) (st : Manager α)
    (h : ∀ c ∈ desired, lookupMgr (key c) st = none) :
    mReconcile upd key st desired = ([], desired, none) := by
  have hf : st.filter (fun e => desired.any (fun c => key c = e.1)) = [] := by
    rw [List.filter_eq_nil_iff]
    intro e he
    simp only [List.any_eq_true, decide_eq_true_eq, not_exists, not_and]
    intro c hc hkey
    have hnone : lookupMgr (key c) st = none := h c hc
    rw [lookupMgr_eq_none_iff] at hnone
    exact hnone (hkey ▸ List.mem_map_of_mem Prod.fst he)
  rw [mReconcile, hf]
  exact mgrLoop_all_novel upd key desired [] false (fun c _ => rfl)

theorem constructLoopListener_flag (factory : ListenerConfig → Option Err)
    (key : ListenerConfig → String) (toC : List ListenerConfig)
    (st : Manager ListenerConfig) (restart : Bool)
    (h : (constructLoopListener factory key st restart toC).2.2 = none) :
    (constructLoopListener factory key st restart toC).2.1 =
      (restart || !toC.isEmpty) := by
  induction toC generalizing st restart with
  | nil => simp [constructLoopListener]
  | cons c rest ih =>
    cases hf : factory c with
    | none =>
      have h2 : (constructLoopListener factory key (upsert key st c) true rest).2.2 = none := by
        simpa [constructLoopListener, hf] using h
      simp [constructLoopListener, hf, ih _ _ h2]
    | some e =>
      cases e with
      | restartRequired =>
        have h2 : (constructLoopListener factory key (upsert key st c) true rest).2.2 = none := by
          simpa [constructLoopListener, hf] using h
        simp [constructLoopListener, hf, ih _ _ h2]
      | fatal m =>
        exfalso
        simp [constructLoopListener, hf] at h

theorem stageCore_flag {α : Type} (upd : α → α → UpdRes) (key : α → String)
    (factory : α → Option Err) (wrapMsg : String)
    (mgr : Manager α) (desired : List α) (restart : Bool)
    (h : (stageCore upd key factory wrapMsg mgr desired restart).2.2 = none) :
    (stageCore upd key factory wrapMsg mgr desired restart).2.1 =
      (restart || ((mReconcile upd key mgr desired).2.2 == some Err.restartRequired)) := by
  cases hm : mReconcile upd key mgr desired with
  | mk mgr1 p =>
    obtain ⟨toC, merr⟩ := p
    cases merr with
    | none =>
      cases hc : constructLoop factory key mgr1 toC with
      | mk mgr2 e => cases e <;> simp_all [stageCore]
    | some e =>
      cases e with
      | restartRequired =>
        cases hc : constructLoop factory key mgr1 toC with
        | mk mgr2 e2 => cases e2 <;> simp_all [stageCore]
      | fatal m =>
        exfalso
        simp [stageCore, hm] at h

/-- C2: if the desired configuration fails validation, Reconcile returns
that validation error immediately and no manager's state is mutated at
all — the entire daemon state, all four managers included, is returned
unchanged. -/
theorem c2_validation_error_leaves_state_unchanged (ext : External) (s : Stunner)
    (req : StunnerConfig) (m : String) (h : validate req = some m) :
    Reconcile ext s req = (s, some (Err.fatal m)) := by
  simp [Reconcile, h]

def extTrivial : External :=
  { updAdmin := fun _ _ => UpdRes.ok
    updAuth := fun _ _ => UpdRes.ok
    updListener := fun _ _ => UpdRes.ok
    updCluster := fun _ _ => UpdRes.ok
    newAdmin := fun _ => none
    newAuth := fun _ => none
    newListener := fun _ => none
    newCluster := fun _ => none }

def adminInfo : AdminConfig := { LogLevel := "info" }

def stunner0 : Stunner :=
  { version := "v1alpha1"
    logLevel := "info"
    adminManager := [(adminName, adminInfo)]
    authManager := [(authName, defaultAuthConfig)]
    listenerManager := []
    clusterManager := [] }

def reqInvalid : StunnerConfig :=
  { ApiVersion := "v1alpha1"
    Admin := adminInfo
    Auth := defaultAuthConfig
    Listeners := []
    Clusters := [{ Name := "", type := "STATIC", Endpoints := [] }] }

theorem c2_witness :
    validate reqInvalid = some "invalid configuration" ∧
    Reconcile extTrivial stunner0 reqInvalid =
      (stunner0, some (Err.fatal "invalid configuration")) :=
  ⟨by decide,
   c2_validation_error_leaves_state_unchanged extTrivial stunner0 reqInvalid
     "invalid configuration" (by decide)⟩

/-- C9: whenever the environment-expanded file content fails YAML
parsing, LoadConfig never returns a successfully parsed configuration:
the fallback branch re-tests the non-nil YAML error instead of the JSON
error, so a JSON parse failure yields the combined error message, and a
JSON parse success reaches the error path that calls Error() on the nil
JSON error value. -/
theorem c9_yaml_error_never_yields_config (ctx : LoadCtx) (configPath content ye : String)
    (hread : ctx.readFileRes = Except.ok content)
    (hyaml : ctx.yamlUnmarshal (ctx.expandEnv (loadConfigEnvUpdate ctx.env) content) =
      Except.error ye) :
    (∀ c, (LoadConfig ctx configPath).2 ≠ LoadOutcome.ok c) ∧
    (∀ v, ctx.jsonUnmarshal (ctx.expandEnv (loadConfigEnvUpdate ctx.env) content) =
        Except.ok v →
      (LoadConfig ctx configPath).2 = LoadOutcome.nilErrorCall) := by
  constructor
  · intro c
    simp only [LoadConfig, hread]
    rw [hyaml]
    cases hj : ctx.jsonUnmarshal (ctx.expandEnv (loadConfigEnvUpdate ctx.env) content) <;>
      simp [hj]
  · intro v hv
    simp only [LoadConfig, hread]
    rw [hyaml, hv]

def cfg9 : StunnerConfig :=
  { ApiVersion := "v1alpha1"
    Admin := adminInfo
    Auth := defaultAuthConfig
    Listeners := []
    Clusters := [] }

def ctx9 : LoadCtx :=
  { env := fun _ => none
    readFileRes := Except.ok "not: yaml"
    yamlUnmarshal := fun _ => Except.error "yaml parse failure"
    jsonUnmarshal := fun _ => Except.ok cfg9
    expandEnv := fun _ content => content }

theorem c9_witness :
    (LoadConfig ctx9 "stunner.conf").2 ≠ LoadOutcome.ok cfg9 ∧
    (LoadConfig ctx9 "stunner.conf").2 = LoadOutcome.nilErrorCall :=
  ⟨(c9_yaml_error_never_yields_config ctx9 "stunner.conf" "not: yaml"
      "yaml parse failure" rfl rfl).1 cfg9,
   (c9_yaml_error_never_yields_config ctx9 "stunner.conf" "not: yaml"
      "yaml parse failure" rfl rfl).2 cfg9 rfl⟩

/-- C10: LoadConfig mutates the process environment before expanding the
file content: whenever STUNNER_PORT is unset, empty, or not a string of
decimal digits, it is set to the decimal rendering of the parsed value of
STUNNER_PUBLIC_PORT when that parses and of the default port otherwise,
and no other environment variable is touched. -/
theorem c10_env_port_defaulting (ctx : LoadCtx) (configPath content : String)
    (hread : ctx.readFileRes = Except.ok content)
    (hbad : ctx.env "STUNNER_PORT" = none ∨
      ∃ p, ctx.env "STUNNER_PORT" = some p ∧ ((p == "") || !digitsOnly p) = true) :
    (LoadConfig ctx configPath).1 "STUNNER_PORT" =
      some (toString (resolvePublicPort ctx.env)) ∧
    (∀ k, k ≠ "STUNNER_PORT" → (LoadConfig ctx configPath).1 k = ctx.env k) ∧
    (ctx.env "STUNNER_PUBLIC_PORT" = none → resolvePublicPort ctx.env = DefaultPort) ∧
    (∀ ps p, ctx.env "STUNNER_PUBLIC_PORT" = some ps → goAtoi ps = some p →
      resolvePublicPort ctx.env = p) ∧
    (∀ ps, ctx.env "STUNNER_PUBLIC_PORT" = some ps → goAtoi ps = none →
      resolvePublicPort ctx.env = DefaultPort) := by
  have h1 : (LoadConfig ctx configPath).1 = loadConfigEnvUpdate ctx.env := by
    simp only [LoadConfig, hread]
    cases hy : ctx.yamlUnmarshal (ctx.expandEnv (loadConfigEnvUpdate ctx.env) content) with
    | ok s => simp
    | error ye =>
      cases hj : ctx.jsonUnmarshal (ctx.expandEnv (loadConfigEnvUpdate ctx.env) content) <;>
        simp
  have hupd : loadConfigEnvUpdate ctx.env =
      setEnv ctx.env "STUNNER_PORT" (toString (resolvePublicPort ctx.env)) := by
    unfold loadConfigEnvUpdate
    rcases hbad with hb | ⟨p, hp, hbp⟩
    · simp [hb]
    · simp [hp, hbp]
  refine ⟨?_, ?_, ?_, ?_, ?_⟩
  · rw [h1, hupd]; simp [setEnv]
  · intro k hk; rw [h1, hupd]; simp [setEnv, hk]
  · intro h; simp [resolvePublicPort, h]
  · intro ps p hps hap; simp [resolvePublicPort, hps, hap]
  · intro ps hps hap; simp [resolvePublicPort, hps, hap]

def ctx10 : LoadCtx :=
  { env := fun k => if k = "STUNNER_PUBLIC_PORT" then some "1234" else none
    readFileRes := Except.ok "port: $STUNNER_PORT"
    yamlUnmarshal := fun _ => Except.error "unparsed"
    jsonUnmarshal := fun _ => Except.error "unparsed"
    expandEnv := fun _ content => content }

theorem c10_witness :
    (LoadConfig ctx10 "stunner.conf").1 "STUNNER_PORT" =
      some (toString (resolvePublicPort ctx10.env)) ∧
    (LoadConfig ctx10 "stunner.conf").1 "HOME" = ctx10.env "HOME" ∧
    resolvePublicPort ctx10.env = 1234 :=
  ⟨(c10_env_port_defaulting ctx10 "stunner.conf" "port: $STUNNER_PORT" rfl (Or.inl rfl)).1,
   (c10_env_port_defaulting ctx10 "stunner.conf" "port: $STUNNER_PORT" rfl
      (Or.inl rfl)).2.1 "HOME" (by decide),
   (c10_env_port_defaulting ctx10 "stunner.conf" "port: $STUNNER_PORT" rfl
      (Or.inl rfl)).2.2.2.1 "1234" 1234 rfl (by decide)⟩

theorem Reconcile_no_fatal_decompose (ext : External) (s : Stunner) (req : StunnerConfig)
    (hnf : ∀ m, (Reconcile ext s req).2 ≠ some (Err.fatal m)) :
    ∃ am r1 aum r2 lm r3 cm r4,
      validate req = none ∧
      adminStageCore ext req s.adminManager false = (am, r1, none) ∧
      authStageCore ext req s.authManager r1 = (aum, r2, none) ∧
      listenerStageCore ext req s.listenerManager r2 = (lm, r3, none) ∧
      clusterStageCore ext req s.clusterManager r3 = (cm, r4, none) ∧
      Reconcile ext s req =
        ({ s with
            adminManager := am
            logLevel := (getAdminMgr am).LogLevel
            authManager := aum
            listenerManager := lm
            clusterManager := cm },
          if r4 then some Err.restartRequired else none) := by
  cases hval : validate req with
  | some m => exact absurd (by simp [Reconcile, hval]) (hnf m)
  | none =>
    rcases hA : adminStageCore ext req s.adminManager false with ⟨am, r1, e1⟩
    cases e1 with
    | some m => exact absurd (by simp [Reconcile, hval, hA]) (hnf m)
    | none =>
      rcases hB : authStageCore ext req s.authManager r1 with ⟨aum, r2, e2⟩
      cases e2 with
      | some m => exact absurd (by simp [Reconcile, hval, hA, hB]) (hnf m)
      | none =>
        rcases hL : listenerStageCore ext req s.listenerManager r2 with ⟨lm, r3, e3⟩
        cases e3 with
        | some m => exact absurd (by simp [Reconcile, hval, hA, hB, hL]) (hnf m)
        | none =>
          rcases hC : clusterStageCore ext req s.clusterManager r3 with ⟨cm, r4, e4⟩
          cases e4 with
          | some m => exact absurd (by simp [Reconcile, hval, hA, hB, hL, hC]) (hnf m)
          | none =>
            exact ⟨am, r1, aum, r2, lm, r3, cm, r4, rfl, rfl, hB, hL, hC,
              by simp [Reconcile, hval, hA, hB, hL, hC]⟩

theorem listenerStageCore_flag (ext : External) (req : StunnerConfig)
    (mgr : Manager ListenerConfig) (restart : Bool)
    (lm : Manager ListenerConfig) (r3 : Bool)
    (h : listenerStageCore ext req mgr restart = (lm, r3, none)) :
    r3 = ((restart ||
        ((mReconcile ext.updListener listenerKey mgr req.Listeners).2.2 ==
          some Err.restartRequired)) ||
      !(mReconcile ext.updListener listenerKey mgr req.Listeners).2.1.isEmpty) := by
  unfold listenerStageCore at h
  rcases hm : mReconcile ext.updListener listenerKey mgr req.Listeners with ⟨mgr1, toC, merr⟩
  rw [hm] at h
  cases merr with
  | none =>
    simp only at h ⊢
    have hflag := constructLoopListener_flag ext.newListener listenerKey toC mgr1
      (restart || ((none : Option Err) == some Err.restartRequired)) (by rw [h])
    rw [h] at hflag
    simpa using hflag
  | some e =>
    cases e with
    | restartRequired =>
      simp only at h ⊢
      have hflag := constructLoopListener_flag ext.newListener listenerKey toC mgr1
        (restart || ((some Err.restartRequired : Option Err) == some Err.restartRequired))
        (by rw [h])
      rw [h] at hflag
      simpa using hflag
    | fatal m =>
      exfalso
      simp at h

/-- C1: for every desired configuration whose listener names are all
novel relative to the current state (so the listener manager's Reconcile
returns every listener configuration in toConstruct) and on which no
fatal error occurs, Reconcile returns the RestartRequired verdict: every
newly constructed listener unconditionally forces the aggregate verdict
to RestartRequired. -/
theorem c1_new_listeners_force_restart (ext : External) (s : Stunner)
    (req : StunnerConfig)
    (hnf : ∀ m, (Reconcile ext s req).2 ≠ some (Err.fatal m))
    (hnov : ∀ l ∈ req.Listeners, lookupMgr l.Name s.listenerManager = none)
    (hne : req.Listeners ≠ []) :
    (Reconcile ext s req).2 = some Err.restartRequired := by
  obtain ⟨am, r1, aum, r2, lm, r3, cm, r4, hval, hA, hB, hL, hC, hR⟩ :=
    Reconcile_no_fatal_decompose ext s req hnf
  have hmrec : mReconcile ext.updListener listenerKey s.listenerManager req.Listeners =
      ([], req.Listeners, none) :=
    mReconcile_all_novel ext.updListener listenerKey req.Listeners s.listenerManager
      (fun c hc => hnov c hc)
  have hr3 := listenerStageCore_flag ext req s.listenerManager r2 lm r3 hL
  rw [hmrec] at hr3
  have hr3t : r3 = true := by
    cases hls : req.Listeners with
    | nil => exact absurd hls hne
    | cons a as => rw [hr3, hls]; simp
  unfold clusterStageCore at hC
  have hcl := stageCore_flag ext.updCluster clusterKey ext.newCluster
    "could not reconcile cluster config: " s.clusterManager req.Clusters r3 (by rw [hC])
  rw [hC] at hcl
  simp only at hcl
  have hr4 : r4 = true := by rw [hcl, hr3t]; simp
  rw [hR, hr4]
  simp

def listenerA : ListenerConfig :=
  { Name := "a", Protocol := "udp", Addr := "1.2.3.4", Port := 3478, Routes := [] }

def reqOneNewListener : StunnerConfig :=
  { ApiVersion := "v1alpha1"
    Admin := adminInfo
    Auth := defaultAuthConfig
    Listeners := [listenerA]
    Clusters := [] }

theorem c1_witness :
    (Reconcile extTrivial stunner0 reqOneNewListener).2 = some Err.restartRequired := by
  apply c1_new_listeners_force_restart extTrivial stunner0 reqOneNewListener
  · intro m h
    rw [show (Reconcile extTrivial stunner0 reqOneNewListener).2 =
      some Err.restartRequired by decide] at h
    simp at h
  · intro l _
    rfl
  · decide

def clusterC : ClusterConfig :=
  { Name := "c", type := "STATIC", Endpoints := ["10.0.0.0/8"] }

def reqOneNewCluster : StunnerConfig :=
  { ApiVersion := "v1alpha1"
    Admin := adminInfo
    Auth := defaultAuthConfig
    Listeners := []
    Clusters := [clusterC] }

def extClusterRestart : External :=
  { extTrivial with newCluster := fun _ => some Err.restartRequired }

/-- C3 counterexample: a run in which a step does signal RestartRequired —
the cluster factory returns the RestartRequired sentinel while
constructing a new cluster — and no fatal error occurs, yet Reconcile
returns nil: the sentinel returned by the cluster factory is tolerated
but never aggregated into the verdict. -/
theorem c3_counterexample :
    extClusterRestart.newCluster clusterC = some Err.restartRequired ∧
    (mReconcile extClusterRestart.updCluster clusterKey stunner0.clusterManager
      reqOneNewCluster.Clusters).2.1 = [clusterC] ∧
    (Reconcile extClusterRestart stunner0 reqOneNewCluster).2 = none := by
  decide

theorem if_restart_iff (b : Bool) :
    ((if b then some Err.restartRequired else none) = some Err.restartRequired) ↔ b = true := by
  cases b <;> simp

/-- C3 (amended): in a run without a fatal error, Reconcile returns
RestartRequired exactly when one of the four managers' Reconcile signals
RestartRequired or the listener stage has to construct at least one new
listener; otherwise it returns nil. In particular a RestartRequired
sentinel returned by the admin, auth or cluster factory while
constructing a new object is tolerated (the object is still upserted) but
does not contribute to the aggregate verdict. -/
theorem c3_restart_aggregation (ext : External) (s : Stunner) (req : StunnerConfig)
    (hnf : ∀ m, (Reconcile ext s req).2 ≠ some (Err.fatal m)) :
    ((Reconcile ext s req).2 = some Err.restartRequired ↔
      (mReconcile ext.updAdmin adminKey s.adminManager [req.Admin]).2.2 =
          some Err.restartRequired ∨
        (mReconcile ext.updAuth authKey s.authManager [req.Auth]).2.2 =
          some Err.restartRequired ∨
        (mReconcile ext.updListener listenerKey s.listenerManager req.Listeners).2.2 =
          some Err.restartRequired ∨
        (mReconcile ext.updListener listenerKey s.listenerManager req.Listeners).2.1 ≠ [] ∨
        (mReconcile ext.updCluster clusterKey s.clusterManager req.Clusters).2.2 =
          some Err.restartRequired) := by
  obtain ⟨am, r1, aum, r2, lm, r3, cm, r4, hval, hA, hB, hL, hC, hR⟩ :=
    Reconcile_no_fatal_decompose ext s req hnf
  unfold adminStageCore at hA
  unfold authStageCore at hB
  unfold clusterStageCore at hC
  have h1 := stageCore_flag ext.updAdmin adminKey ext.newAdmin
    "could not reconcile admin config: " s.adminManager [req.Admin] false (by rw [hA])
  rw [hA] at h1
  simp only at h1
  have h2 := stageCore_flag ext.updAuth authKey ext.newAuth
    "could not reconcile auth config: " s.authManager [req.Auth] r1 (by rw [hB])
  rw [hB] at h2
  simp only at h2
  have h3 := listenerStageCore_flag ext req s.listenerManager r2 lm r3 hL
  have h4 := stageCore_flag ext.updCluster clusterKey ext.newCluster
    "could not reconcile cluster config: " s.clusterManager req.Clusters r3 (by rw [hC])
  rw [hC] at h4
  simp only at h4
  rw [hR]
  simp only [if_restart_iff]
  rw [h4, h3, h2, h1]
  simp only [Bool.or_eq_true, beq_iff_eq, Bool.not_eq_true', List.isEmpty_eq_false,
    Bool.false_or, ne_eq]
  tauto

def extAdminRestart : External :=
  { extTrivial with updAdmin := fun _ _ => UpdRes.restartRequired }

def reqNoChange : StunnerConfig :=
  { ApiVersion := "v1alpha1"
    Admin := adminInfo
    Auth := defaultAuthConfig
    Listeners := []
    Clusters := [] }

theorem c3_witness :
    (Reconcile extAdminRestart stunner0 reqNoChange).2 = some Err.restartRequired :=
  (c3_restart_aggregation extAdminRestart stunner0 reqNoChange
    (fun m h => by
      rw [show (Reconcile extAdminRestart stunner0 reqNoChange).2 =
        some Err.restartRequired by decide] at h
      simp at h)).2 (Or.inl (by decide))

/-- C4: a fatal (non-RestartRequired) error at a step aborts all
subsequent steps and is returned to the caller without rolling back
earlier mutations: when the cluster factory fails with a non-restart
error, Reconcile returns exactly that error, and the returned daemon
state carries the admin, auth and listener mutations already applied in
the same call (in particular the listener manager is exactly the listener
stage's output) together with the cluster upserts performed before the
failing factory call. -/
theorem c4_cluster_factory_fatal_keeps_listener_mutations
    (ext : External) (s : Stunner) (req : StunnerConfig)
    (am : Manager AdminConfig) (r1 : Bool)
    (aum : Manager AuthConfig) (r2 : Bool)
    (lm : Manager ListenerConfig) (r3 : Bool)
    (mgrC : Manager ClusterConfig) (toC : List ClusterConfig) (merrC : Option Err)
    (cm : Manager ClusterConfig) (m : String)
    (hval : validate req = none)
    (hA : adminStageCore ext req s.adminManager false = (am, r1, none))
    (hB : authStageCore ext req s.authManager r1 = (aum, r2, none))
    (hL : listenerStageCore ext req s.listenerManager r2 = (lm, r3, none))
    (hM : mReconcile ext.updCluster clusterKey s.clusterManager req.Clusters =
      (mgrC, toC, merrC))
    (hMnf : ∀ mm, merrC ≠ some (Err.fatal mm))
    (hF : constructLoop ext.newCluster clusterKey mgrC toC = (cm, some m)) :
    Reconcile ext s req =
      ({ s with
          adminManager := am
          logLevel := (getAdminMgr am).LogLevel
          authManager := aum
          listenerManager := lm
          clusterManager := cm }, some (Err.fatal m)) := by
  have hCS : clusterStageCore ext req s.clusterManager r3 =
      (cm, r3 || (merrC == some Err.restartRequired), some m) := by
    unfold clusterStageCore stageCore
    rw [hM]
    cases merrC with
    | none => simp [hF]
    | some e =>
      cases e with
      | restartRequired => simp [hF]
      | fatal mm => exact absurd rfl (hMnf mm)
  simp [Reconcile, hval, hA, hB, hL, hCS]

def extC4 : External :=
  { extTrivial with newCluster := fun _ => some (Err.fatal "boom") }

def listenerOld : ListenerConfig :=
  { Name := "old", Protocol := "udp", Addr := "0.0.0.0", Port := 3478, Routes := [] }

def stunnerC4 : Stunner :=
  { stunner0 with listenerManager := [("old", listenerOld)] }

def reqC4 : StunnerConfig :=
  { ApiVersion := "v1alpha1"
    Admin := adminInfo
    Auth := defaultAuthConfig
    Listeners := [listenerA]
    Clusters := [clusterC] }

theorem c4_witness :
    Reconcile extC4 stunnerC4 reqC4 =
      ({ stunnerC4 with
          adminManager := [(adminName, adminInfo)]
          logLevel := (getAdminMgr [(adminName, adminInfo)]).LogLevel
          authManager := [(authName, defaultAuthConfig)]
          listenerManager := [("a", listenerA)]
          clusterManager := [] }, some (Err.fatal "boom")) :=
  c4_cluster_factory_fatal_keeps_listener_mutations extC4 stunnerC4 reqC4
    [(adminName, adminInfo)] false [(authName, defaultAuthConfig)] false
    [("a", listenerA)] true [] [clusterC] none [] "boom"
    (by decide) (by decide) (by decide) (by decide) (by decide)
    (fun mm h => Option.noConfusion h) (by decide)

theorem lookupMgr_map_self {α : Type} (key : α → String) (c : α) :
    ∀ (desired : List α), (desired.map key).Nodup → c ∈ desired →
      lookupMgr (key c) (desired.map (fun d => (key d, d))) = some c := by
  intro desired
  induction desired with
  | nil => intro _ hc; cases hc
  | cons d rest ih =>
    intro hnd hc
    rw [List.map_cons] at hnd
    obtain ⟨hnotin, hnd2⟩ := List.nodup_cons.mp hnd
    simp only [List.map_cons, lookupMgr]
    by_cases h : key d = key c
    · have hdc : c = d := by
        rcases List.mem_cons.mp hc with h1 | h1
        · exact h1
        · exfalso
          have hmem : key d ∈ rest.map key := by
            rw [h]
            exact List.mem_map_of_mem key h1
          exact hnotin hmem
      simp [h, hdc]
    · have hcr : c ∈ rest := by
        rcases List.mem_cons.mp hc with h1 | h1
        · exact absurd (congrArg key h1.symm) h
        · exact h1
      simp [h]
      exact ih hnd2 hcr

theorem replaceMgr_self {α : Type} (n : String) (c : α) :
    ∀ (st : Manager α), (∀ e ∈ st, e.1 = n → e = (n, c)) → replaceMgr n c st = st := by
  intro st
  induction st with
  | nil => intro _; rfl
  | cons e rest ih =>
    intro h
    obtain ⟨e1, e2⟩ := e
    have ht : replaceMgr n c rest = rest :=
      ih (fun x hx hxn => h x (List.mem_cons_of_mem _ hx) hxn)
    simp only [replaceMgr, List.map_cons] at ht ⊢
    by_cases he : e1 = n
    · have hee := h (e1, e2) (List.mem_cons_self _ _) he
      simp only [Prod.mk.injEq] at hee
      simp [he, ht, hee.2]
    · simp [he, ht]

theorem mgrLoop_self {α : Type} (upd : α → α → UpdRes) (key : α → String)
    (st : Manager α) :
    ∀ (desired : List α),
      (∀ c ∈ desired, lookupMgr (key c) st = some c ∧ upd c c = UpdRes.ok ∧
        replaceMgr (key c) c st = st) →
      mgrLoop upd key st desired false = (st, [], none) := by
  intro desired
  induction desired with
  | nil => intro _; rfl
  | cons c rest ih =>
    intro h
    obtain ⟨hl, hu, hr⟩ := h c (List.mem_cons_self c rest)
    simp only [mgrLoop, hl, hu, hr]
    exact ih (fun d hd => h d (List.mem_cons_of_mem c hd))

theorem mReconcile_self {α : Type} (upd : α → α → UpdRes) (key : α → String)
    (desired : List α) (hnd : (desired.map key).Nodup)
    (hupd : ∀ c, upd c c = UpdRes.ok) :
    mReconcile upd key (desired.map (fun d => (key d, d))) desired =
      (desired.map (fun d => (key d, d)), [], none) := by
  have hfil : (desired.map (fun d => (key d, d))).filter
      (fun e => desired.any (fun c => key c = e.1)) = desired.map (fun d => (key d, d)) := by
    rw [List.filter_eq_self]
    intro e he
    obtain ⟨d, hd, rfl⟩ := List.mem_map.mp he
    simp only [List.any_eq_true, decide_eq_true_eq]
    exact ⟨d, hd, rfl⟩
  rw [mReconcile, hfil]
  apply mgrLoop_self
  intro c hc
  refine ⟨lookupMgr_map_self key c desired hnd hc, hupd c, ?_⟩
  apply replaceMgr_self
  intro e he hke
  obtain ⟨d, hd, rfl⟩ := List.mem_map.mp he
  have hdc : d = c := List.inj_on_of_nodup_map hnd hd hc hke
  rw [hdc]

/-- C5: when the desired configuration is identical to the current state —
each manager holds exactly the desired objects under the desired keys, so
every manager's Reconcile succeeds with an empty toConstruct and signals
no restart — the orchestrator's Reconcile returns nil and no manager's
object set changes: the only state change is the (idempotent) logger
rebind to the unchanged admin log level. -/
theorem c5_identical_config_reconcile_idempotent (ext : External) (s : Stunner)
    (req : StunnerConfig)
    (hval : validate req = none)
    (hA : s.adminManager = [(adminName, req.Admin)])
    (hB : s.authManager = [(authName, req.Auth)])
    (hL : s.listenerManager = req.Listeners.map (fun c => (listenerKey c, c)))
    (hC : s.clusterManager = req.Clusters.map (fun c => (clusterKey c, c)))
    (hu1 : ∀ c, ext.updAdmin c c = UpdRes.ok)
    (hu2 : ∀ c, ext.updAuth c c = UpdRes.ok)
    (hu3 : ∀ c, ext.updListener c c = UpdRes.ok)
    (hu4 : ∀ c, ext.updCluster c c = UpdRes.ok) :
    Reconcile ext s req = ({ s with logLevel := req.Admin.LogLevel }, none) := by
  have hnodL : (req.Listeners.map ListenerConfig.Name).Nodup ∧
      (req.Clusters.map ClusterConfig.Name).Nodup := by
    unfold validate at hval
    split at hval
    next hcond => exact ⟨hcond.1, hcond.2.1⟩
    next => simp at hval
  have hmA := mReconcile_self ext.updAdmin adminKey [req.Admin] (by simp) hu1
  have hmB := mReconcile_self ext.updAuth authKey [req.Auth] (by simp) hu2
  have hmL := mReconcile_self ext.updListener listenerKey req.Listeners
    (show (req.Listeners.map listenerKey).Nodup from hnodL.1) hu3
  have hmC := mReconcile_self ext.updCluster clusterKey req.Clusters
    (show (req.Clusters.map clusterKey).Nodup from hnodL.2) hu4
  have hcastA : ([(adminName, req.Admin)] : Manager AdminConfig) =
      [req.Admin].map (fun d => (adminKey d, d)) := rfl
  have hcastB : ([(authName, req.Auth)] : Manager AuthConfig) =
      [req.Auth].map (fun d => (authKey d, d)) := rfl
  have hsA : adminStageCore ext req s.adminManager false = (s.adminManager, false, none) := by
    unfold adminStageCore stageCore
    rw [hA, hcastA, hmA]
    simp [constructLoop]
  have hsB : authStageCore ext req s.authManager false = (s.authManager, false, none) := by
    unfold authStageCore stageCore
    rw [hB, hcastB, hmB]
    simp [constructLoop]
  have hsL : listenerStageCore ext req s.listenerManager false =
      (s.listenerManager, false, none) := by
    unfold listenerStageCore
    rw [hL, hmL]
    simp [constructLoopListener]
  have hsC : clusterStageCore ext req s.clusterManager false =
      (s.clusterManager, false, none) := by
    unfold clusterStageCore stageCore
    rw [hC, hmC]
    simp [constructLoop]
  have hlog : getAdminMgr s.adminManager = req.Admin := by
    rw [hA]
    simp [getAdminMgr, lookupMgr]
  simp [Reconcile, hval, hsA, hsB, hsL, hsC, hlog]

def reqW5 : StunnerConfig :=
  { ApiVersion := "v1alpha1"
    Admin := adminInfo
    Auth := defaultAuthConfig
    Listeners := [listenerA]
    Clusters := [clusterC] }

def stunnerW5 : Stunner :=
  { version := "v1alpha1"
    logLevel := "info"
    adminManager := [(adminName, adminInfo)]
    authManager := [(authName, defaultAuthConfig)]
    listenerManager := [("a", listenerA)]
    clusterManager := [("c", clusterC)] }

theorem c5_witness :
    Reconcile extTrivial stunnerW5 reqW5 =
      ({ stunnerW5 with logLevel := reqW5.Admin.LogLevel }, none) :=
  c5_identical_config_reconcile_idempotent extTrivial stunnerW5 reqW5
    (by decide) rfl rfl rfl rfl
    (fun c => rfl) (fun c => rfl) (fun c => rfl) (fun c => rfl)

/-- C7: immediately after the admin stage (and regardless of the restart
flag the admin stage produced), the daemon logger is rebound to the log
level read from the possibly-updated admin object: whenever validation
passes and the admin stage completes without a fatal error, the state
Reconcile returns carries that log level, whatever the later stages do;
and a desired configuration that changes only the admin log level yields
a nil verdict with the new level in effect within the same call. -/
theorem c7_logger_rebound_after_admin_stage :
    (∀ (ext : External) (s : Stunner) (req : StunnerConfig)
        (am : Manager AdminConfig) (r1 : Bool),
      validate req = none →
      adminStageCore ext req s.adminManager false = (am, r1, none) →
      (Reconcile ext s req).1.logLevel = (getAdminMgr am).LogLevel) ∧
    (∀ (ext : External) (s : Stunner) (req : StunnerConfig) (a0 : AdminConfig),
      validate req = none →
      s.adminManager = [(adminName, a0)] →
      ext.updAdmin a0 req.Admin = UpdRes.ok →
      s.authManager = [(authName, req.Auth)] →
      (∀ c, ext.updAuth c c = UpdRes.ok) →
      s.listenerManager = req.Listeners.map (fun c => (listenerKey c, c)) →
      (∀ c, ext.updListener c c = UpdRes.ok) →
      s.clusterManager = req.Clusters.map (fun c => (clusterKey c, c)) →
      (∀ c, ext.updCluster c c = UpdRes.ok) →
      Reconcile ext s req =
        ({ s with
            adminManager := [(adminName, req.Admin)]
            logLevel := req.Admin.LogLevel }, none)) := by
  constructor
  · intro ext s req am r1 hval hA
    simp only [Reconcile, hval, hA]
    rcases hB : authStageCore ext req s.authManager r1 with ⟨aum, r2, e2⟩
    cases e2 with
    | some m => simp
    | none =>
      dsimp only
      rcases hL : listenerStageCore ext req s.listenerManager r2 with ⟨lm, r3, e3⟩
      cases e3 with
      | some m => simp
      | none =>
        dsimp only
        rcases hC : clusterStageCore ext req s.clusterManager r3 with ⟨cm, r4, e4⟩
        cases e4 with
        | some m => simp
        | none => simp
  · intro ext s req a0 hval hA0 hupd0 hB hu2 hL hu3 hC hu4
    have hnodL : (req.Listeners.map ListenerConfig.Name).Nodup ∧
        (req.Clusters.map ClusterConfig.Name).Nodup := by
      unfold validate at hval
      split at hval
      next hcond => exact ⟨hcond.1, hcond.2.1⟩
      next => simp at hval
    have hmB := mReconcile_self ext.updAuth authKey [req.Auth] (by simp) hu2
    have hmL := mReconcile_self ext.updListener listenerKey req.Listeners
      (show (req.Listeners.map listenerKey).Nodup from hnodL.1) hu3
    have hmC := mReconcile_self ext.updCluster clusterKey req.Clusters
      (show (req.Clusters.map clusterKey).Nodup from hnodL.2) hu4
    have hcastB : ([(authName, req.Auth)] : Manager AuthConfig) =
        [req.Auth].map (fun d => (authKey d, d)) := rfl
    have hsA : adminStageCore ext req s.adminManager false =
        ([(adminName, req.Admin)], false, none) := by
      unfold adminStageCore stageCore
      rw [hA0]
      simp [mReconcile, mgrLoop, lookupMgr, replaceMgr, hupd0, constructLoop, adminKey]
    have hsB : authStageCore ext req s.authManager false = (s.authManager, false, none) := by
      unfold authStageCore stageCore
      rw [hB, hcastB, hmB]
      simp [constructLoop]
    have hsL : listenerStageCore ext req s.listenerManager false =
        (s.listenerManager, false, none) := by
      unfold listenerStageCore
      rw [hL, hmL]
      simp [constructLoopListener]
    have hsC : clusterStageCore ext req s.clusterManager false =
        (s.clusterManager, false, none) := by
      unfold clusterStageCore stageCore
      rw [hC, hmC]
      simp [constructLoop]
    have hlog : getAdminMgr [(adminName, req.Admin)] = req.Admin := by
      simp [getAdminMgr, lookupMgr]
    simp [Reconcile, hval, hsA, hsB, hsL, hsC, hlog]

def adminDebug : AdminConfig := { LogLevel := "debug" }

def reqW7 : StunnerConfig :=
  { ApiVersion := "v1alpha1"
    Admin := adminDebug
    Auth := defaultAuthConfig
    Listeners := [listenerA]
    Clusters := [clusterC] }

theorem c7_witness :
    Reconcile extTrivial stunnerW5 reqW7 =
      ({ stunnerW5 with
          adminManager := [(adminName, reqW7.Admin)]
          logLevel := reqW7.Admin.LogLevel }, none) :=
  c7_logger_rebound_after_admin_stage.2 extTrivial stunnerW5 reqW7 adminInfo
    (by decide) rfl rfl rfl (fun c => rfl) rfl (fun c => rfl) rfl (fun c => rfl)

theorem mgrKeys_map_lookup {α : Type} (d : α) (st : Manager α)
    (hnd : (mgrKeys st).Nodup) :
    (mgrKeys st).map (fun n => (lookupMgr n st).getD d) = st.map Prod.snd := by
  induction st with
  | nil => rfl
  | cons e rest ih =>
    obtain ⟨hnotin, hnd2⟩ :=
      List.nodup_cons.mp (show (e.1 :: rest.map Prod.fst).Nodup from hnd)
    simp only [mgrKeys, List.map_cons]
    congr 1
    · simp [lookupMgr]
    · have hstep : ∀ n ∈ rest.map Prod.fst,
          (lookupMgr n (e :: rest)).getD d = (lookupMgr n rest).getD d := by
        intro n hn
        have hne : ¬ e.1 = n := fun hh => hnotin (hh ▸ hn)
        simp [lookupMgr, hne]
      rw [List.map_congr_left hstep]
      exact ih hnd2

/-- C8: GetConfig is a pure read of the current state: its Admin and Auth
fields are the current singleton objects' configurations and its
Listeners and Clusters lists hold exactly one entry per key of the
corresponding manager's key listing, in listing order, each entry being
that object's current configuration — that is, exactly the managers'
stored objects in order. -/
theorem c8_getconfig_assembles_state (s : Stunner)
    (hndL : (mgrKeys s.listenerManager).Nodup)
    (hndC : (mgrKeys s.clusterManager).Nodup) :
    GetConfig s =
      { ApiVersion := s.version
        Admin := getAdmin s
        Auth := getAuth s
        Listeners := s.listenerManager.map Prod.snd
        Clusters := s.clusterManager.map Prod.snd } := by
  unfold GetConfig
  simp only [getListener, getCluster]
  congr 1
  · exact mgrKeys_map_lookup defaultListenerConfig s.listenerManager hndL
  · exact mgrKeys_map_lookup defaultClusterConfig s.clusterManager hndC

theorem c8_witness :
    GetConfig stunnerW5 =
      { ApiVersion := stunnerW5.version
        Admin := getAdmin stunnerW5
        Auth := getAuth stunnerW5
        Listeners := stunnerW5.listenerManager.map Prod.snd
        Clusters := stunnerW5.clusterManager.map Prod.snd } :=
  c8_getconfig_assembles_state stunnerW5 (by decide) (by decide)

theorem mem_mgrKeys_of_lookup_some {α : Type} {n : String} {st : Manager α} {a : α}
    (h : lookupMgr n st = some a) : n ∈ mgrKeys st := by
  by_contra hnm
  rw [← lookupMgr_eq_none_iff] at hnm
  rw [hnm] at h
  exact Option.noConfusion h

theorem mem_mgrKeys_upsert {α : Type} (key : α → String) (st : Manager α) (c : α)
    (n : String) :
    n ∈ mgrKeys (upsert key st c) ↔ n ∈ mgrKeys st ∨ n = key c := by
  unfold upsert
  by_cases h : st.any (fun e => e.1 = key c)
  · rw [if_pos h, mgrKeys_replaceMgr]
    constructor
    · exact Or.inl
    · rintro (hh | rfl)
      · exact hh
      · obtain ⟨e, he, heq⟩ := List.any_eq_true.mp h
        rw [decide_eq_true_eq] at heq
        rw [← heq]
        exact List.mem_map_of_mem Prod.fst he
  · rw [if_neg h]
    simp [mgrKeys]

theorem constructLoop_mem_keys {α : Type} (factory : α → Option Err) (key : α → String) :
    ∀ (toC : List α) (st : Manager α),
      (constructLoop factory key st toC).2 = none →
      ∀ n, (n ∈ mgrKeys (constructLoop factory key st toC).1 ↔
        n ∈ mgrKeys st ∨ n ∈ toC.map key) := by
  intro toC
  induction toC with
  | nil => intro st h n; simp [constructLoop]
  | cons c rest ih =>
    intro st h n
    cases hf : factory c with
    | none =>
      simp only [constructLoop, hf] at h ⊢
      rw [ih (upsert key st c) h n, mem_mgrKeys_upsert]
      simp only [List.map_cons, List.mem_cons]
      tauto
    | some e =>
      cases e with
      | restartRequired =>
        simp only [constructLoop, hf] at h ⊢
        rw [ih (upsert key st c) h n, mem_mgrKeys_upsert]
        simp only [List.map_cons, List.mem_cons]
        tauto
      | fatal m =>
        exfalso
        simp [constructLoop, hf] at h

theorem constructLoopListener_eq_constructLoop (factory : ListenerConfig → Option Err)
    (key : ListenerConfig → String) :
    ∀ (toC : List ListenerConfig) (st : Manager ListenerConfig) (restart : Bool),
      (constructLoopListener factory key st restart toC).1 =
        (constructLoop factory key st toC).1 ∧
      (constructLoopListener factory key st restart toC).2.2 =
        (constructLoop factory key st toC).2 := by
  intro toC
  induction toC with
  | nil => intro st restart; exact ⟨rfl, rfl⟩
  | cons c rest ih =>
    intro st restart
    cases hf : factory c with
    | none =>
      simp only [constructLoopListener, constructLoop, hf]
      exact ih (upsert key st c) true
    | some e =>
      cases e with
      | restartRequired =>
        simp only [constructLoopListener, constructLoop, hf]
        exact ih (upsert key st c) true
      | fatal m => simp [constructLoopListener, constructLoop, hf]

theorem mgrLoop_toC_subset {α : Type} (upd : α → α → UpdRes) (key : α → String) :
    ∀ (desired : List α) (st : Manager α) (restart : Bool),
      ∀ c ∈ (mgrLoop upd key st desired restart).2.1, c ∈ desired := by
  intro desired
  induction desired with
  | nil => intro st restart c hc; simp [mgrLoop] at hc
  | cons c rest ih =>
    intro st restart d hd
    cases hl : lookupMgr (key c) st with
    | none =>
      simp only [mgrLoop, hl] at hd
      rcases hrec : mgrLoop upd key st rest restart with ⟨st1, toC, e⟩
      rw [hrec] at hd
      simp only [List.mem_cons] at hd ⊢
      rcases hd with rfl | hd
      · exact Or.inl rfl
      · have := ih st restart d (by rw [hrec]; exact hd)
        exact Or.inr this
    | some old =>
      cases hu : upd old c with
      | ok =>
        simp only [mgrLoop, hl, hu] at hd
        exact List.mem_cons_of_mem c (ih (replaceMgr (key c) c st) restart d hd)
      | restartRequired =>
        simp only [mgrLoop, hl, hu] at hd
        exact List.mem_cons_of_mem c (ih st true d hd)
      | fatal m =>
        simp [mgrLoop, hl, hu] at hd

theorem mgrLoop_covered {α : Type} (upd : α → α → UpdRes) (key : α → String) :
    ∀ (desired : List α) (st : Manager α) (restart : Bool),
      (∀ m, (mgrLoop upd key st desired restart).2.2 ≠ some (Err.fatal m)) →
      ∀ c ∈ desired, key c ∈ mgrKeys st ∨ c ∈ (mgrLoop upd key st desired restart).2.1 := by
  intro desired
  induction desired with
  | nil => intro st restart _ c hc; cases hc
  | cons c rest ih =>
    intro st restart h d hd
    cases hl : lookupMgr (key c) st with
    | none =>
      simp only [mgrLoop, hl] at h ⊢
      rcases hrec : mgrLoop upd key st rest restart with ⟨st1, toC, e⟩
      rw [hrec] at h
      simp only at h ⊢
      simp only [List.mem_cons] at hd ⊢
      rcases hd with rfl | hd
      · exact Or.inr (Or.inl rfl)
      · have hh : ∀ m, (mgrLoop upd key st rest restart).2.2 ≠ some (Err.fatal m) := by
          intro m hm
          rw [hrec] at hm
          exact h m (by simpa using hm)
        rcases ih st restart hh d hd with hk | ht
        · exact Or.inl hk
        · rw [hrec] at ht
          exact Or.inr (Or.inr (by simpa using ht))
    | some old =>
      cases hu : upd old c with
      | ok =>
        simp only [mgrLoop, hl, hu] at h ⊢
        simp only [List.mem_cons] at hd
        rcases hd with rfl | hd
        · exact Or.inl (mem_mgrKeys_of_lookup_some hl)
        · rcases ih (replaceMgr (key c) c st) restart h d hd with hk | ht
          · rw [mgrKeys_replaceMgr] at hk
            exact Or.inl hk
          · exact Or.inr ht
      | restartRequired =>
        simp only [mgrLoop, hl, hu] at h ⊢
        simp only [List.mem_cons] at hd
        rcases hd with rfl | hd
        · exact Or.inl (mem_mgrKeys_of_lookup_some hl)
        · exact ih st true h d hd
      | fatal m =>
        exfalso
        apply h m
        simp [mgrLoop, hl, hu]

theorem mem_keys_filter_desired {α : Type} (key : α → String) (st : Manager α)
    (desired : List α) (n : String) :
    n ∈ mgrKeys (st.filter (fun e => desired.any (fun c => key c = e.1))) ↔
      (n ∈ mgrKeys st ∧ n ∈ desired.map key) := by
  simp only [mgrKeys, List.mem_map, List.mem_filter, List.any_eq_true, decide_eq_true_eq]
  constructor
  · rintro ⟨e, ⟨he, c, hc, hkc⟩, rfl⟩
    exact ⟨⟨e, he, rfl⟩, ⟨c, hc, hkc⟩⟩
  · rintro ⟨⟨e, he, rfl⟩, c, hc, hkc⟩
    exact ⟨e, ⟨he, c, hc, hkc⟩, rfl⟩

theorem keys_after_reconstruct {α : Type} (upd : α → α → UpdRes) (key : α → String)
    (factory : α → Option Err) (mgr : Manager α) (desired : List α)
    (mgr1 : Manager α) (toC : List α) (merr : Option Err) (mgr2 : Manager α)
    (hm : mReconcile upd key mgr desired = (mgr1, toC, merr))
    (hnf : ∀ m, merr ≠ some (Err.fatal m))
    (hcl : constructLoop factory key mgr1 toC = (mgr2, none)) :
    ∀ n, n ∈ mgrKeys mgr2 ↔ n ∈ desired.map key := by
  intro n
  have h2 := constructLoop_mem_keys factory key toC mgr1 (by rw [hcl]) n
  rw [hcl] at h2
  simp only at h2
  unfold mReconcile at hm
  have hkeys1 := mgrLoop_keys upd key desired
    (mgr.filter (fun e => desired.any (fun c => key c = e.1))) false
  rw [hm] at hkeys1
  simp only at hkeys1
  have hsub := mgrLoop_toC_subset upd key desired
    (mgr.filter (fun e => desired.any (fun c => key c = e.1))) false
  rw [hm] at hsub
  simp only at hsub
  have hcov := mgrLoop_covered upd key desired
    (mgr.filter (fun e => desired.any (fun c => key c = e.1))) false
    (fun m hm2 => by rw [hm] at hm2; exact hnf m (by simpa using hm2))
  rw [hm] at hcov
  simp only at hcov
  rw [h2, hkeys1]
  constructor
  · rintro (hk | hk)
    · exact ((mem_keys_filter_desired key mgr desired n).mp hk).2
    · obtain ⟨c, hc, rfl⟩ := List.mem_map.mp hk
      exact List.mem_map_of_mem key (hsub c hc)
  · intro hk
    obtain ⟨c, hc, rfl⟩ := List.mem_map.mp hk
    rcases hcov c hc with hfk | htc
    · exact Or.inl hfk
    · exact Or.inr (List.mem_map_of_mem key htc)

theorem stageCore_mem_keys {α : Type} (upd : α → α → UpdRes) (key : α → String)
    (factory : α → Option Err) (wrapMsg : String) (mgr : Manager α)
    (desired : List α) (restart : Bool)
    (h : (stageCore upd key factory wrapMsg mgr desired restart).2.2 = none) :
    ∀ n, n ∈ mgrKeys (stageCore upd key factory wrapMsg mgr desired restart).1 ↔
      n ∈ desired.map key := by
  rcases hm : mReconcile upd key mgr desired with ⟨mgr1, toC, merr⟩
  unfold stageCore at h ⊢
  rw [hm] at h ⊢
  cases merr with
  | none =>
    simp only at h ⊢
    rcases hcl : constructLoop factory key mgr1 toC with ⟨mgr2, ce⟩
    cases ce with
    | some m => simp [hcl] at h
    | none =>
      exact keys_after_reconstruct upd key factory mgr desired mgr1 toC none mgr2 hm
        (fun m => by simp) hcl
  | some e =>
    cases e with
    | fatal m => simp at h
    | restartRequired =>
      simp only at h ⊢
      rcases hcl : constructLoop factory key mgr1 toC with ⟨mgr2, ce⟩
      cases ce with
      | some m => simp [hcl] at h
      | none =>
        exact keys_after_reconstruct upd key factory mgr desired mgr1 toC
          (some Err.restartRequired) mgr2 hm (fun m => by simp) hcl

theorem listenerStageCore_mem_keys (ext : External) (req : StunnerConfig)
    (mgr : Manager ListenerConfig) (restart : Bool)
    (h : (listenerStageCore ext req mgr restart).2.2 = none) :
    ∀ n, n ∈ mgrKeys (listenerStageCore ext req mgr restart).1 ↔
      n ∈ req.Listeners.map listenerKey := by
  rcases hm : mReconcile ext.updListener listenerKey mgr req.Listeners with ⟨mgr1, toC, merr⟩
  unfold listenerStageCore at h ⊢
  rw [hm] at h ⊢
  cases merr with
  | none =>
    simp only at h ⊢
    obtain ⟨hfst, herr⟩ := constructLoopListener_eq_constructLoop ext.newListener
      listenerKey toC mgr1 (restart || ((none : Option Err) == some Err.restartRequired))
    have hclnone : (constructLoop ext.newListener listenerKey mgr1 toC).2 = none := by
      rw [← herr]; exact h
    rcases hcl : constructLoop ext.newListener listenerKey mgr1 toC with ⟨mgr2, ce⟩
    rw [hcl] at hclnone hfst
    simp only at hclnone
    subst hclnone
    rw [hfst]
    exact keys_after_reconstruct ext.updListener listenerKey ext.newListener mgr
      req.Listeners mgr1 toC none mgr2 hm (fun m => by simp) hcl
  | some e =>
    cases e with
    | fatal m => simp at h
    | restartRequired =>
      simp only at h ⊢
      obtain ⟨hfst, herr⟩ := constructLoopListener_eq_constructLoop ext.newListener
        listenerKey toC mgr1
        (restart || ((some Err.restartRequired : Option Err) == some Err.restartRequired))
      have hclnone : (constructLoop ext.newListener listenerKey mgr1 toC).2 = none := by
        rw [← herr]; exact h
      rcases hcl : constructLoop ext.newListener listenerKey mgr1 toC with ⟨mgr2, ce⟩
      rw [hcl] at hclnone hfst
      simp only at hclnone
      subst hclnone
      rw [hfst]
      exact keys_after_reconstruct ext.updListener listenerKey ext.newListener mgr
        req.Listeners mgr1 toC (some Err.restartRequired) mgr2 hm (fun m => by simp) hcl

/-- C6: after every reconciliation cycle that completes without a fatal
error, each manager's key set is exactly the set of identities desired
for that kind: the singleton admin and auth keys for the singleton kinds,
and precisely the desired listener and cluster names for the named kinds —
stale objects are removed and novel ones constructed and upserted. -/
theorem c6_manager_keys_match_desired (ext : External) (s : Stunner)
    (req : StunnerConfig)
    (hnf : ∀ m, (Reconcile ext s req).2 ≠ some (Err.fatal m)) (n : String) :
    (n ∈ mgrKeys (Reconcile ext s req).1.adminManager ↔ n = adminName) ∧
    (n ∈ mgrKeys (Reconcile ext s req).1.authManager ↔ n = authName) ∧
    (n ∈ mgrKeys (Reconcile ext s req).1.listenerManager ↔
      n ∈ req.Listeners.map ListenerConfig.Name) ∧
    (n ∈ mgrKeys (Reconcile ext s req).1.clusterManager ↔
      n ∈ req.Clusters.map ClusterConfig.Name) := by
  obtain ⟨am, r1, aum, r2, lm, r3, cm, r4, hval, hA, hB, hL, hC, hR⟩ :=
    Reconcile_no_fatal_decompose ext s req hnf
  rw [hR]
  simp only
  unfold adminStageCore at hA
  unfold authStageCore at hB
  unfold clusterStageCore at hC
  refine ⟨?_, ?_, ?_, ?_⟩
  · have hk := stageCore_mem_keys ext.updAdmin adminKey ext.newAdmin
      "could not reconcile admin config: " s.adminManager [req.Admin] false (by rw [hA]) n
    rw [hA] at hk
    simp only at hk
    simpa [adminKey] using hk
  · have hk := stageCore_mem_keys ext.updAuth authKey ext.newAuth
      "could not reconcile auth config: " s.authManager [req.Auth] r1 (by rw [hB]) n
    rw [hB] at hk
    simp only at hk
    simpa [authKey] using hk
  · have hk := listenerStageCore_mem_keys ext req s.listenerManager r2 (by rw [hL]) n
    rw [hL] at hk
    simp only at hk
    exact hk
  · have hk := stageCore_mem_keys ext.updCluster clusterKey ext.newCluster
      "could not reconcile cluster config: " s.clusterManager req.Clusters r3
      (by rw [hC]) n
    rw [hC] at hk
    simp only at hk
    exact hk

def listenerB : ListenerConfig :=
  { Name := "b", Protocol := "udp", Addr := "0.0.0.0", Port := 3479, Routes := [] }

def listenerNew : ListenerConfig :=
  { Name := "new", Protocol := "udp", Addr := "0.0.0.0", Port := 3480, Routes := [] }

def stunnerC6 : Stunner :=
  { stunner0 with listenerManager := [("a", listenerA), ("b", listenerB)] }

def reqC6 : StunnerConfig :=
  { ApiVersion := "v1alpha1"
    Admin := adminInfo
    Auth := defaultAuthConfig
    Listeners := [listenerB, listenerNew]
    Clusters := [] }

theorem c6_witness :
    ("b" ∈ mgrKeys (Reconcile extTrivial stunnerC6 reqC6).1.adminManager ↔
      "b" = adminName) ∧
    ("b" ∈ mgrKeys (Reconcile extTrivial stunnerC6 reqC6).1.authManager ↔
      "b" = authName) ∧
    ("b" ∈ mgrKeys (Reconcile extTrivial stunnerC6 reqC6).1.listenerManager ↔
      "b" ∈ reqC6.Listeners.map ListenerConfig.Name) ∧
    ("b" ∈ mgrKeys (Reconcile extTrivial stunnerC6 reqC6).1.clusterManager ↔
      "b" ∈ reqC6.Clusters.map ClusterConfig.Name) :=
  c6_manager_keys_match_desired extTrivial stunnerC6 reqC6
    (fun m h => by
      rw [show (Reconcile extTrivial stunnerC6 reqC6).2 =
        some Err.restartRequired by decide] at h
      simp at h) "b"
